import Mathlib

/-!
Shallow embedding of `src/MT940_50.py` (Swift MT940/950 generator).

The script reads a csv file and folds its rows into a SWIFT MT940/MT950
message stream.  The core consists of

  * `convert_values` (source lines 261-283): the per-record field
    normalizer, and
  * `gen_mt9`        (source lines 19-257): the stateful statement
    assembler.

We embed records as `List String` (a csv row), the running context
(the `prev_line` dictionary, source lines 101-115) as a structure, and
each string the assembler appends to `zline` as one element of a
`List Emit`, tagged by the emission site in the source so that counting
tags is possible.  The bytes written to the target file are exactly the
concatenation of the payload strings of the emitted list, in order.
Fallible behaviour (the `raise` on a bad column count, Python
`IndexError` / `TypeError` / `AttributeError` crashes) is modelled with
`Except String`.

Python string primitives used by the source are given explicit ASCII
models (`pyUpper`, `pyReplaceChar`, `pySlice`, `pyIsSpace`, `pyLjust`,
`pyRjust`); all csv data handled by the script is ASCII, where these
agree with the Python methods.
-/

namespace MT940

/-- Python `str.upper` on one ASCII character.  This is exactly core
`Char.toUpper`, which maps `a`-`z` (code points 97-122) to `A`-`Z`
and leaves every other character unchanged. -/
def pyUpperChar (c : Char) : Char := Char.toUpper c

/-- Python `str.upper` (ASCII model): uppercase every character. -/
def pyUpper (s : String) : String := String.mk (s.data.map pyUpperChar)

/-- Python `str.replace(c, r)` where the pattern is one character `c`
and the replacement `r` is a (possibly empty) character list.  All the
`replace` calls in the source (lines 124, 271) have one-character
patterns, so this models them exactly. -/
def pyReplaceChar (c : Char) (r : List Char) (s : String) : String :=
  String.mk (s.data.flatMap (fun a => if a = c then r else [a]))

/-- Python slicing `s[a:b]` for `0 <= a <= b` (clamping past the end,
as Python does). -/
def pySlice (s : String) (a b : Nat) : String :=
  String.mk ((s.data.drop a).take (b - a))

/-- Python whitespace characters (ASCII part): space, tab, newline,
carriage return, vertical tab, form feed. -/
def pySpaceChar (c : Char) : Bool :=
  c = ' ' || c = '\t' || c = '\n' || c = '\r' || c = '\x0b' || c = '\x0c'

/-- Python `str.isspace`: non-empty and every character is whitespace. -/
def pyIsSpace (s : String) : Bool :=
  !s.data.isEmpty && s.data.all pySpaceChar

/-- Python `str.ljust(w, fill)`: pad on the right up to width `w`. -/
def pyLjust (s : String) (w : Nat) (fill : Char) : String :=
  String.mk (s.data ++ List.replicate (w - s.data.length) fill)

/-- Python `str.rjust(w, fill)`: pad on the left up to width `w`. -/
def pyRjust (s : String) (w : Nat) (fill : Char) : String :=
  String.mk (List.replicate (w - s.data.length) fill ++ s.data)

/-- A single-quote character, used by the Python `repr` of a list of
strings (`str(line)` at source line 128). -/
def sq : String := String.singleton (Char.ofNat 39)

/-- Python `str(line)` for a list of strings: the list repr
`[.., ..]` with each element single-quoted.  (Python switches to
double quotes when an element itself contains a single quote; no
element we reason about does.) -/
def pyReprList (l : List String) : String :=
  "[" ++ String.intercalate ", " (l.map (fun s => sq ++ s ++ sq)) ++ "]"

/-!
## The field normalizer `convert_values` (source lines 261-283)

The Python loops over `enumerate(xline)` and rewrites the entry at
index `i` in place; since every index is visited once, this is a map
with the index.  `convert_item` is the body of the loop.
-/

/-- Body of the `convert_values` loop (source lines 265-281) applied to
the item at index `i`:
  * indices 5, 6, 11, 17, 18, 21: upper case (types and signs);
  * indices 8, 12, 20, 23: amounts, `.replace(",", "").replace(".", ",").replace("-", "")`;
  * indices 7, 9, 10, 19, 22: dates, re-sliced according to `dtf`
    (index 10 gets the short `MMDD` form, the rest `YYMMDD`);
  * all other indices: unchanged. -/
def convert_item (dtf : String) (i : Nat) (item : String) : String :=
  if i = 5 ∨ i = 6 ∨ i = 11 ∨ i = 17 ∨ i = 18 ∨ i = 21 then
    pyUpper item
  else if i = 8 ∨ i = 12 ∨ i = 20 ∨ i = 23 then
    pyReplaceChar '-' [] (pyReplaceChar '.' [','] (pyReplaceChar ',' [] item))
  else if i = 7 ∨ i = 9 ∨ i = 10 ∨ i = 19 ∨ i = 22 then
    if dtf = "DDMMYYYY" then
      if i ≠ 10 then pySlice item 8 10 ++ pySlice item 3 5 ++ pySlice item 0 2
      else pySlice item 3 5 ++ pySlice item 0 2
    else if dtf = "MMDDYYYY" then
      if i ≠ 10 then pySlice item 8 10 ++ pySlice item 0 2 ++ pySlice item 3 5
      else pySlice item 0 2 ++ pySlice item 3 5
    else
      if i ≠ 10 then pySlice item 2 4 ++ pySlice item 5 7 ++ pySlice item 8 10
      else pySlice item 5 7 ++ pySlice item 8 10
  else item

/-- Recursion over the record carrying the current index, mirroring
`for i, item in enumerate(xline)`. -/
def convert_aux (dtf : String) (i : Nat) : List String → List String
  | [] => []
  | item :: rest => convert_item dtf i item :: convert_aux dtf (i + 1) rest

/-- `convert_values(xline, dtf)` (source lines 261-283). -/
def convert_values (xline : List String) (dtf : String) : List String :=
  convert_aux dtf 0 xline

/-!
## The statement assembler `gen_mt9` (source lines 19-257)

Configuration mirrors the keyword arguments of `gen_mt9`.  The three
arguments whose defaults are Python booleans but which may be passed as
strings (`mir`, `f113`, `chk`) are modelled as `Sum Bool String`;
`pyStr` is Python `%s` interpolation of such a value and `pyTruthy`
its truth value.
-/

/-- Python `%s` of a value that is either a bool or a string. -/
def pyStr : Sum Bool String → String
  | Sum.inl true => "True"
  | Sum.inl false => "False"
  | Sum.inr s => s

/-- Python truthiness of a value that is either a bool or a string. -/
def pyTruthy : Sum Bool String → Bool
  | Sum.inl b => b
  | Sum.inr s => s ≠ ""

/-- The keyword arguments of `gen_mt9` (source lines 19-43) that the
core logic reads.  `active_file` and `target_file` are I/O plumbing and
are not part of the embedding. -/
structure Config where
  msg_type : String
  dtf : String
  appid : String
  servid : String
  session_no : String
  seqno : String
  drctn : String
  msg_prty : String
  dlvt_mnty : String
  obs : String
  inp_time : String
  out_date : String
  out_time : String
  mir : Sum Bool String
  f113 : Sum Bool String
  mur : String
  chk : Sum Bool String
deriving Repr, DecidableEq

/-- The `prev_line` dictionary (source lines 101-115), in source order. -/
structure PrevLine where
  account : String
  sendbic : String
  recvbic : String
  stmtno : String
  stmtpg : String
  ccy : String
  cbalsgn : String
  cbaltyp : String
  cbaldte : String
  cbal : String
  abalsgn : String
  abaldte : String
  abal : String
deriving Repr, DecidableEq

/-- Initial `prev_line`: every value is the empty string. -/
def initPrev : PrevLine := ⟨"", "", "", "", "", "", "", "", "", "", "", "", ""⟩

/-- Loop-carried state of `gen_mt9`: `prev_line`, the TRN counter
`trn` (source line 118) and `lst_line` (source line 119). -/
structure GenState where
  prev : PrevLine
  trn : Nat
  lst_line : Option (List String)
deriving Repr, DecidableEq

/-- State before the first record: `trn = 0`, `lst_line = None`. -/
def initState : GenState := ⟨initPrev, 0, none⟩

/-- One element of the output stream.  Each constructor corresponds to
one `zline +=` site in the source and carries the exact string appended
there; the generated file is the concatenation of the payloads in
order. -/
inductive Emit where
  /-- page close `:62x:` from the context (source line 135) -/
  | pageClose (s : String)
  /-- available balance `:64:` from the context (source line 143) -/
  | availBal (s : String)
  /-- message trailer inside the loop (source lines 153, 155) -/
  | msgTrailer (s : String)
  /-- basic header block (source line 158) -/
  | basicHeader (s : String)
  /-- application header block (source lines 166, 179) -/
  | appHeader (s : String)
  /-- user header block opening the text block (source line 187) -/
  | userHeader (s : String)
  /-- auto-generated `:20:` transaction reference (source line 193) -/
  | trnAuto (s : String)
  /-- `:20:` transaction reference taken from the record (source line 196) -/
  | trnOwn (s : String)
  /-- `:25:` and `:28C:` account and statement tags (source line 198) -/
  | acctStmt (s : String)
  /-- `:60x:` opening balance (source line 202) -/
  | openBal (s : String)
  /-- `:61:` transaction detail (source line 208) -/
  | txnDetail (s : String)
  /-- supplementary free-text line (source line 217) -/
  | suppl (s : String)
  /-- `:86:` information tag (source line 220) -/
  | info86 (s : String)
  /-- terminal `:62F:` close built from `lst_line` (source line 239) -/
  | finalClose (s : String)
  /-- terminal `:64:` built from `lst_line` (source line 246) -/
  | finalAvail (s : String)
  /-- terminal message trailer (source lines 251, 253) -/
  | finalTrailer (s : String)
deriving Repr, DecidableEq

/-- The header-sentinel test of source line 124:
`line[-2].upper().replace(" ", "") == "REF4(MT940ONLY)"`
(only evaluated when the row has at least two fields). -/
def headerSentinel (line : List String) : Prop :=
  pyReplaceChar ' ' [] (pyUpper (line.getD (line.length - 2) "")) = "REF4(MT940ONLY)"

instance (line : List String) : Decidable (headerSentinel line) := by
  unfold headerSentinel
  infer_instance

/-- The message of the `raise` at source line 128.  Note that `line`
is a Python list, so `line.count(",")` counts the fields equal to the
one-character string `,` and not the number of fields. -/
def badColumnMsg (line : List String) : String :=
  "Bad column count " ++ toString (line.countP (fun s => s == ",")) ++ " : " ++ pyReprList line

/-- The page-close string of source lines 135-139. -/
def close62 (prev : PrevLine) : String :=
  ":62" ++ prev.cbaltyp ++ ":" ++ prev.cbalsgn ++ prev.cbaldte ++ prev.ccy ++ prev.cbal ++ "\n"

/-- The available-balance string of source lines 143-146. -/
def avail64 (prev : PrevLine) : String :=
  ":64:" ++ prev.abalsgn ++ prev.abaldte ++ prev.ccy ++ prev.abal ++ "\n"

/-- Page-close emissions (source lines 133-146): close the previous
page when the page number or account changed and a page is open, and
add the `:64:` line when the context has a non-empty available-balance
sign. -/
def closeEmits (prev : PrevLine) (l : List String) : List Emit :=
  if (prev.stmtpg ≠ l.getD 4 "" ∨ prev.account ≠ l.getD 2 "") ∧ prev.account ≠ "" then
    Emit.pageClose (close62 prev) ::
      (if prev.abalsgn ≠ "" then [Emit.availBal (avail64 prev)] else [])
  else []

/-- The message trailer string without its newline (source lines
152-155 append it with a newline, the terminal close at lines 250-253
without). -/
def trailerStr (cfg : Config) : String :=
  if pyTruthy cfg.chk then "-\x7d\x7b5:\x7bCHK:" ++ pyStr cfg.chk ++ "\x7d\x7d"
  else "-\x7d\x7b5:\x7d"

/-- The basic header block of source lines 158-162. -/
def basicHeaderStr (cfg : Config) (l : List String) : String :=
  "\x7b1:" ++ cfg.appid ++ cfg.servid ++ pyLjust (l.getD 0 "") 12 'X' ++
    cfg.session_no ++ cfg.seqno ++ "\x7d"

/-- The input-direction application header of source lines 166-170. -/
def appHeaderInStr (cfg : Config) (l : List String) : String :=
  "\x7b2:I" ++ cfg.msg_type ++ pyLjust (l.getD 1 "") 12 'X' ++ cfg.msg_prty ++
    cfg.dlvt_mnty ++ cfg.obs ++ "\x7d"

/-- The output-direction application header of source lines 179-184,
with the configured `mir` value interpolated (the auto-generation
branch of lines 172-177 is unreachable, see `attrErrMsg`). -/
def appHeaderOutStr (cfg : Config) : String :=
  "\x7b2:O" ++ cfg.msg_type ++ cfg.inp_time ++ pyStr cfg.mir ++ cfg.out_date ++
    cfg.out_time ++ cfg.msg_prty ++ "\x7d"

/-- The user header block of source line 187.  The source interpolates
the raw `f113` argument here (the formatted `f113_` computed on line
186 is never used). -/
def userHeaderStr (cfg : Config) : String :=
  "\x7b3:" ++ pyStr cfg.f113 ++ "\x7b118:" ++ cfg.mur ++ "\x7d\x7b4:\n"

/-- The crash of source line 174: the script does
`from datetime import datetime` (line 16), which shadows the module
imported on line 15, so `datetime.datetime.today()` raises
`AttributeError` whenever the auto-MIR branch is reached. -/
def attrErrMsg : String :=
  "AttributeError: type object datetime has no attribute datetime"

/-- The message-boundary test of source line 149: the stored raw BICs
are compared against the upper-cased incoming BICs. -/
def newMsgTest (prev : PrevLine) (l : List String) : Prop :=
  prev.sendbic ≠ pyUpper (l.getD 0 "") ∨ prev.recvbic ≠ pyUpper (l.getD 1 "")

instance (prev : PrevLine) (l : List String) : Decidable (newMsgTest prev l) := by
  unfold newMsgTest
  infer_instance

/-- Message-boundary emissions (source lines 149-187): trailer of the
previous message when one is open, then basic, application and user
header blocks of the new message. -/
def msgEmits (cfg : Config) (prev : PrevLine) (l : List String) : List Emit :=
  if newMsgTest prev l then
    (if prev.sendbic ≠ "" then [Emit.msgTrailer (trailerStr cfg ++ "\n")] else [])
      ++ [Emit.basicHeader (basicHeaderStr cfg l),
          Emit.appHeader (if cfg.drctn = "I" then appHeaderInStr cfg l else appHeaderOutStr cfg),
          Emit.userHeader (userHeaderStr cfg)]
  else []

/-- The page-open test of source line 190 (same comparison as the
page-close test of line 133, without the open-page guard). -/
def newPageTest (prev : PrevLine) (l : List String) : Prop :=
  prev.stmtpg ≠ l.getD 4 "" ∨ prev.account ≠ l.getD 2 ""

instance (prev : PrevLine) (l : List String) : Decidable (newPageTest prev l) := by
  unfold newPageTest
  infer_instance

/-- The blank-TRN test of source line 192:
`line[26] == "" or line[26].isspace()`. -/
def blankTrn (l : List String) : Prop :=
  l.getD 26 "" = "" ∨ pyIsSpace (l.getD 26 "") = true

instance (l : List String) : Decidable (blankTrn l) := by
  unfold blankTrn
  infer_instance

/-- The auto-generated transaction reference of source line 193. -/
def autoTrnStr (trn : Nat) : String :=
  ":20:MT94050GEN" ++ pyRjust (toString trn) 6 '0' ++ "\n"

/-- The `:20:` emission and updated counter (source lines 191-196). -/
def trnEmit (trn : Nat) (l : List String) : Emit × Nat :=
  if blankTrn l then (Emit.trnAuto (autoTrnStr trn), trn + 1)
  else (Emit.trnOwn (":20:" ++ l.getD 26 "" ++ "\n"), trn)

/-- Page-open emissions and updated counter (source lines 190-206):
`:20:`, `:25:` with `:28C:`, and the `:60x:` opening balance. -/
def openEmits (trn : Nat) (prev : PrevLine) (l : List String) : List Emit × Nat :=
  if newPageTest prev l then
    ([(trnEmit trn l).1,
      Emit.acctStmt (":25:" ++ l.getD 2 "" ++ "\n:28C:" ++ pyRjust (l.getD 3 "") 5 '0' ++
        "/" ++ pyRjust (l.getD 4 "") 5 '0' ++ "\n"),
      Emit.openBal (":60" ++ l.getD 6 "" ++ ":" ++ l.getD 5 "" ++ l.getD 7 "" ++
        l.getD 24 "" ++ l.getD 8 "" ++ "\n")],
     (trnEmit trn l).2)
  else ([], trn)

/-- Per-record unconditional emissions (source lines 208-220): the
`:61:` detail line, the optional supplementary line, and the optional
`:86:` information tag (940 only). -/
def detailEmits (cfg : Config) (l : List String) : List Emit :=
  Emit.txnDetail (":61:" ++ l.getD 9 "" ++ l.getD 10 "" ++ l.getD 11 "" ++ l.getD 12 "" ++
      l.getD 13 "" ++ l.getD 14 "" ++ "//" ++ l.getD 15 "" ++ "\n") ::
    ((if l.getD 16 "" ≠ "" ∧ ¬ pyIsSpace (l.getD 16 "") = true then
        [Emit.suppl (l.getD 16 "" ++ "\n")] else [])
      ++ (if cfg.msg_type = "940" ∧ l.getD 25 "" ≠ "" ∧ ¬ pyIsSpace (l.getD 25 "") = true then
            [Emit.info86 (":86:" ++ l.getD 25 "" ++ "\n")] else []))

/-- The context update of source lines 224-236. -/
def nextPrev (l : List String) : PrevLine :=
  ⟨l.getD 2 "", l.getD 0 "", l.getD 1 "", l.getD 3 "", l.getD 4 "", l.getD 24 "",
    l.getD 17 "", l.getD 18 "", l.getD 19 "", l.getD 20 "", l.getD 21 "", l.getD 22 "",
    l.getD 23 ""⟩

/-- Processing of one already-normalized record `l` (source lines
132-237).  Reaching the auto-MIR branch (direction not `I`, `mir` left
as the boolean `True`, new message) raises `AttributeError`, so nothing
of this record is written; otherwise the record contributes its
emissions and the updated state. -/
def processLine (cfg : Config) (st : GenState) (l : List String) :
    Except String (GenState × List Emit) :=
  if cfg.drctn ≠ "I" ∧ cfg.mir = Sum.inl true ∧ newMsgTest st.prev l then
    Except.error attrErrMsg
  else
    Except.ok (⟨nextPrev l, (openEmits st.trn st.prev l).2, some l⟩,
      closeEmits st.prev l ++ msgEmits cfg st.prev l ++
        (openEmits st.trn st.prev l).1 ++ detailEmits cfg l)

/-- One iteration of the `for line in csv_file` loop (source lines
121-237).  An empty row makes `line[0]` raise `IndexError`; a
one-field row makes `line[-2]` raise `IndexError`; a header row or a
row with an empty first field is skipped; a row whose arity is not 27
raises the bad-column-count exception; any other row is normalized and
processed. -/
def step (cfg : Config) (st : GenState) (line : List String) :
    Except String (GenState × List Emit) :=
  if line = [] then Except.error "IndexError: list index out of range"
  else if line.length = 1 then Except.error "IndexError: list index out of range"
  else if headerSentinel line ∨ line.headD "" = "" then Except.ok (st, [])
  else if line.length ≠ 27 then Except.error (badColumnMsg line)
  else processLine cfg st (convert_values line cfg.dtf)

/-- The whole loop, threading state and concatenating emissions. -/
def runLines (cfg : Config) : GenState → List (List String) →
    Except String (GenState × List Emit)
  | st, [] => Except.ok (st, [])
  | st, line :: rest =>
    match step cfg st line with
    | Except.error e => Except.error e
    | Except.ok (st2, out1) =>
      match runLines cfg st2 rest with
      | Except.error e => Except.error e
      | Except.ok (st3, out2) => Except.ok (st3, out1 ++ out2)

/-- The terminal close (source lines 238-255): built unconditionally
from `lst_line`.  When no data row was processed `lst_line` is still
`None` and `lst_line[17]` raises `TypeError`.  The `:62F:` tag uses the
literal type letter `F` and fields 17, 19, 24, 20 of the last record;
the `:64:` tag is added when field 21 is non-empty; the trailer has no
trailing newline here. -/
def finalize (cfg : Config) (st : GenState) : Except String (List Emit) :=
  match st.lst_line with
  | none => Except.error "TypeError: NoneType object is not subscriptable"
  | some l =>
    Except.ok (Emit.finalClose (":62F:" ++ l.getD 17 "" ++ l.getD 19 "" ++ l.getD 24 "" ++
        l.getD 20 "" ++ "\n") ::
      ((if l.getD 21 "" ≠ "" then
          [Emit.finalAvail (":64:" ++ l.getD 21 "" ++ l.getD 22 "" ++ l.getD 24 "" ++
            l.getD 23 "" ++ "\n")]
        else [])
        ++ [Emit.finalTrailer (trailerStr cfg)]))

/-- The core of `gen_mt9` (source lines 99-255): fold the rows, then
the terminal close.  The value is the ordered stream of emissions whose
payload concatenation is the content of the target file. -/
def gen_mt9 (cfg : Config) (lines : List (List String)) : Except String (List Emit) :=
  match runLines cfg initState lines with
  | Except.error e => Except.error e
  | Except.ok (st, out) =>
    match finalize cfg st with
    | Except.error e => Except.error e
    | Except.ok out2 => Except.ok (out ++ out2)

/-- Concatenation of the emitted payloads: the exact text written to
the target file. -/
def render (out : List Emit) : String :=
  match out with
  | [] => ""
  | e :: rest =>
    (match e with
      | Emit.pageClose s => s
      | Emit.availBal s => s
      | Emit.msgTrailer s => s
      | Emit.basicHeader s => s
      | Emit.appHeader s => s
      | Emit.userHeader s => s
      | Emit.trnAuto s => s
      | Emit.trnOwn s => s
      | Emit.acctStmt s => s
      | Emit.openBal s => s
      | Emit.txnDetail s => s
      | Emit.suppl s => s
      | Emit.info86 s => s
      | Emit.finalClose s => s
      | Emit.finalAvail s => s
      | Emit.finalTrailer s => s) ++ render rest

/-!
## Emission classifiers and extraction helpers
-/

/-- Is the emission a basic header block. -/
def isBasicHeaderE : Emit → Bool
  | Emit.basicHeader _ => true
  | _ => false

/-- Is the emission an application header block. -/
def isAppHeaderE : Emit → Bool
  | Emit.appHeader _ => true
  | _ => false

/-- Is the emission a user header block. -/
def isUserHeaderE : Emit → Bool
  | Emit.userHeader _ => true
  | _ => false

/-- Is the emission a message trailer (loop or terminal). -/
def isTrailerE : Emit → Bool
  | Emit.msgTrailer _ => true
  | Emit.finalTrailer _ => true
  | _ => false

/-- Is the emission a loop message trailer. -/
def isMsgTrailerE : Emit → Bool
  | Emit.msgTrailer _ => true
  | _ => false

/-- Payload of an auto-generated `:20:` reference, if any. -/
def autoTrnOf : Emit → Option String
  | Emit.trnAuto s => some s
  | _ => none

/-- The auto-generated `:20:` references of a run, in order. -/
def autoRefs (out : List Emit) : List String :=
  out.filterMap autoTrnOf

/-- The payloads of the terminal `:62F:` emissions of a result. -/
def finalStrs (r : Except String (List Emit)) : List String :=
  match r with
  | Except.ok out => out.filterMap (fun e => match e with
      | Emit.finalClose s => some s
      | _ => none)
  | Except.error _ => []

/-- The emission list of a successful result (empty on error). -/
def okOut (r : Except String (List Emit)) : List Emit :=
  match r with
  | Except.ok out => out
  | Except.error _ => []

/-!
## Concrete fixtures used by counterexamples and witnesses
-/

/-- A configuration with the defaults of the source (message type 940,
input direction, no checksum). -/
def cfgI : Config :=
  ⟨"940", "DDMMYYYY", "F", "21", "0000", "000000", "I", "N", "", "", "0000",
   "000000", "0000", Sum.inl true, Sum.inl false, "MT940950GEN", Sum.inl false⟩

/-- The same configuration with direction `O`, so that the auto-MIR
branch is reached. -/
def cfgO : Config :=
  ⟨"940", "DDMMYYYY", "F", "21", "0000", "000000", "O", "N", "", "", "0000",
   "000000", "0000", Sum.inl true, Sum.inl false, "MT940950GEN", Sum.inl false⟩

/-- A well-formed 27-field record (dates in `DD-MM-YYYY`, amounts with
thousands separators, blank TRN). -/
def rec1 : List String :=
  ["BANKDEFF", "BANKGB22", "ACCT1", "1", "1",
   "c", "f", "15-10-2015", "1,618,033.89",
   "15-10-2015", "16-10-2015", "d", "123.45", "NTRF", "REF1", "BREF1",
   "suppl text", "d", "f", "15-10-2015", "1,618,033.89",
   "c", "15-10-2015", "4,238.05", "EUR", "ref4 text", ""]

/-- `rec1` with both BICs written in lower case. -/
def recLow : List String :=
  ["bankdeff", "bankgb22", "ACCT1", "1", "1",
   "c", "f", "15-10-2015", "1,618,033.89",
   "15-10-2015", "16-10-2015", "d", "123.45", "NTRF", "REF1", "BREF1",
   "suppl text", "d", "f", "15-10-2015", "1,618,033.89",
   "c", "15-10-2015", "4,238.05", "EUR", "ref4 text", ""]

/-- `rec1` with closing-balance type (field 18) set to `m`
(an intermediate balance, normalized to `M`). -/
def recM : List String :=
  ["BANKDEFF", "BANKGB22", "ACCT1", "1", "1",
   "c", "f", "15-10-2015", "1,618,033.89",
   "15-10-2015", "16-10-2015", "d", "123.45", "NTRF", "REF1", "BREF1",
   "suppl text", "d", "m", "15-10-2015", "1,618,033.89",
   "c", "15-10-2015", "4,238.05", "EUR", "ref4 text", ""]

/-- A malformed record with only 26 fields (the first 26 of `rec1`). -/
def badRec : List String := List.take 26 rec1

/-- `rec1` on statement page 2 (opens a new page after `rec1`). -/
def recPg2 : List String :=
  ["BANKDEFF", "BANKGB22", "ACCT1", "1", "2",
   "c", "f", "15-10-2015", "1,618,033.89",
   "15-10-2015", "16-10-2015", "d", "123.45", "NTRF", "REF1", "BREF1",
   "suppl text", "d", "f", "15-10-2015", "1,618,033.89",
   "c", "15-10-2015", "4,238.05", "EUR", "ref4 text", ""]

/-- A header row as the sentinel test recognizes it. -/
def hdrRow : List String := ["Ref4 (MT940 Only)", "TRN"]

/-- A running context as it stands right after `rec1` was processed
(statement page open, message open for the `rec1` BIC pair). -/
def stW : GenState :=
  ⟨⟨"ACCT1", "BANKDEFF", "BANKGB22", "1", "1", "EUR", "D", "F", "151015",
    "1618033,89", "C", "151015", "4238,05"⟩, 1, some (convert_values rec1 "DDMMYYYY")⟩

/-- The state component of a successful step result (initial state on
error). -/
def stepSt (r : Except String (GenState × List Emit)) : GenState :=
  match r with
  | Except.ok (s, _) => s
  | Except.error _ => initState

/-- The emission component of a successful step result. -/
def stepOut (r : Except String (GenState × List Emit)) : List Emit :=
  match r with
  | Except.ok (_, o) => o
  | Except.error _ => []

/-- The interval `[a, a+n)` as a list, used to describe the
auto-generated TRN counter values of a run segment. -/
def natRangeLen : Nat → Nat → List Nat
  | _, 0 => []
  | a, n + 1 => a :: natRangeLen (a + 1) n

/-- The normalized form of the last data row of the input (the value
`lst_line` holds after the loop): rows that the loop skips (header
sentinel or empty first field) are ignored.  Rows that would crash the
loop do not occur in a successful run, so on successful runs this
agrees with `lst_line`. -/
def lastData (dtf : String) : List (List String) → Option (List String)
  | [] => none
  | line :: rest =>
    match lastData dtf rest with
    | some l => some l
    | none =>
      if headerSentinel line ∨ line.headD "" = "" then none
      else some (convert_values line dtf)

/-!
## Basic lemmas about the normalizer
-/

theorem convert_aux_length (dtf : String) (i : Nat) (l : List String) :
    (convert_aux dtf i l).length = l.length := by
  induction l generalizing i with
  | nil => rfl
  | cons a t ih => simp [convert_aux, ih]

theorem convert_values_length (xline : List String) (dtf : String) :
    (convert_values xline dtf).length = xline.length :=
  convert_aux_length dtf 0 xline

theorem convert_aux_getD (dtf : String) (i k : Nat) (l : List String) :
    (convert_aux dtf k l).getD i "" =
      if i < l.length then convert_item dtf (k + i) (l.getD i "") else "" := by
  induction l generalizing i k with
  | nil => simp [convert_aux]
  | cons a t ih =>
    cases i with
    | zero => simp [convert_aux]
    | succ j =>
      simp only [convert_aux, List.getD_cons_succ, List.length_cons, ih j (k + 1)]
      have harith : k + 1 + j = k + (j + 1) := by omega
      rw [harith]
      simp [Nat.succ_lt_succ_iff]

theorem convert_values_getD (xline : List String) (dtf : String) (i : Nat) :
    (convert_values xline dtf).getD i "" =
      if i < xline.length then convert_item dtf i (xline.getD i "") else "" := by
  simpa using convert_aux_getD dtf i 0 xline

theorem toNat_ofNat_valid {n : Nat} (h : n.isValidChar) : (Char.ofNat n).toNat = n := by
  rw [Char.ofNat, dif_pos h]
  rfl

theorem pyUpperChar_idem (c : Char) : pyUpperChar (pyUpperChar c) = pyUpperChar c := by
  unfold pyUpperChar Char.toUpper
  by_cases h : c.toNat ≥ 97 ∧ c.toNat ≤ 122
  · rw [if_pos h]
    have hv : (c.toNat - 32).isValidChar := by
      constructor
      omega
    have ht : (Char.ofNat (c.toNat - 32)).toNat = c.toNat - 32 := toNat_ofNat_valid hv
    rw [if_neg]
    rw [ht]
    omega
  · rw [if_neg h, if_neg h]

theorem pyUpper_idem (s : String) : pyUpper (pyUpper s) = pyUpper s := by
  have hfun : pyUpperChar ∘ pyUpperChar = pyUpperChar := funext pyUpperChar_idem
  show String.mk ((s.data.map pyUpperChar).map pyUpperChar) = String.mk (s.data.map pyUpperChar)
  rw [List.map_map, hfun]

/-- Indices the normalizer passes through unchanged. -/
theorem convert_item_id (dtf : String) (i : Nat) (item : String)
    (h : ¬ (i = 5 ∨ i = 6 ∨ i = 11 ∨ i = 17 ∨ i = 18 ∨ i = 21))
    (h2 : ¬ (i = 8 ∨ i = 12 ∨ i = 20 ∨ i = 23))
    (h3 : ¬ (i = 7 ∨ i = 9 ∨ i = 10 ∨ i = 19 ∨ i = 22)) :
    convert_item dtf i item = item := by
  unfold convert_item
  rw [if_neg h, if_neg h2, if_neg h3]

/-!
## Claim C3 (code bug): the bad-column-count error reports the number
of fields equal to the string `,`, not the observed field count
-/

/-- C3: a 26-field record anywhere in the input aborts the whole
conversion at that record with the bad-column-count exception, but the
count interpolated into the message is `line.count(",")` evaluated on a
Python list - the number of fields equal to the string `,`, here `0` -
and not the observed field count `26`.  The third conjunct shows the
abort also discards every record after the malformed one. -/
theorem bad_column_count_reports_comma_count :
    badRec.length = 26 ∧
    badRec.countP (fun s => s == ",") = 0 ∧
    gen_mt9 cfgI [rec1, badRec, rec1] = Except.error (badColumnMsg badRec) ∧
    badColumnMsg badRec = "Bad column count 0 : " ++ pyReprList badRec := by
  refine ⟨by decide, by decide, by rfl, by rfl⟩

/-!
## Claim C9 (code bug): the auto-MIR branch raises AttributeError
-/

/-- C9: with direction `O` and `mir` left as the boolean `True`,
opening the first message does not emit an application header with an
auto-generated MIR: line 16 of the source (`from datetime import
datetime`) shadows the `datetime` module imported on line 15, so
`datetime.datetime.today()` at line 174 raises `AttributeError` and the
conversion aborts. -/
theorem auto_mir_raises_attribute_error :
    gen_mt9 cfgO [rec1] = Except.error attrErrMsg := by rfl

/-!
## Claim C2 (corrected): the normalizer is not idempotent
-/

/-- C2 counterexample: applying `convert_values` twice to `rec1` (with
the `DDMMYYYY` layout) differs from applying it once.  The first pass
rewrites the amount `1,618,033.89` to `1618033,89`; the second pass
strips the decimal comma as a thousands separator, giving `161803389`.
Already-normalized dates are also re-sliced: `151015` becomes `0115`. -/
theorem normalizer_not_idempotent :
    convert_values (convert_values rec1 "DDMMYYYY") "DDMMYYYY" ≠
      convert_values rec1 "DDMMYYYY" ∧
    (convert_values rec1 "DDMMYYYY").getD 8 "" = "1618033,89" ∧
    (convert_values (convert_values rec1 "DDMMYYYY") "DDMMYYYY").getD 8 "" = "161803389" ∧
    (convert_values rec1 "DDMMYYYY").getD 7 "" = "151015" ∧
    (convert_values (convert_values rec1 "DDMMYYYY") "DDMMYYYY").getD 7 "" = "0115" := by
  refine ⟨by decide, by decide, by decide, by decide, by decide⟩

theorem convert_item_idem (dtf : String) (i : Nat) (x : String)
    (hAmt : ¬ (i = 8 ∨ i = 12 ∨ i = 20 ∨ i = 23))
    (hDte : ¬ (i = 7 ∨ i = 9 ∨ i = 10 ∨ i = 19 ∨ i = 22)) :
    convert_item dtf i (convert_item dtf i x) = convert_item dtf i x := by
  by_cases hCase : i = 5 ∨ i = 6 ∨ i = 11 ∨ i = 17 ∨ i = 18 ∨ i = 21
  · show convert_item dtf i (convert_item dtf i x) = convert_item dtf i x
    unfold convert_item
    rw [if_pos hCase, if_pos hCase]
    exact pyUpper_idem x
  · have hx := convert_item_id dtf i x hCase hAmt hDte
    rw [hx, hx]

/-- C2 amended: a second application of the Field Normalizer agrees
with the first on every field except the amount fields (indices 8, 12,
20, 23) and the date fields (indices 7, 9, 10, 19, 22); in particular
the case-normalized fields and the passed-through fields are fixed
points.  Amount fields are not fixed points in general (the first pass
introduces a decimal comma that the second pass strips as a thousands
separator), nor are date fields (they are re-sliced); see
`normalizer_not_idempotent`. -/
theorem normalizer_idempotent_except_amount_date_fields
    (xline : List String) (dtf : String) (i : Nat)
    (hAmt : ¬ (i = 8 ∨ i = 12 ∨ i = 20 ∨ i = 23))
    (hDte : ¬ (i = 7 ∨ i = 9 ∨ i = 10 ∨ i = 19 ∨ i = 22)) :
    (convert_values (convert_values xline dtf) dtf).getD i "" =
      (convert_values xline dtf).getD i "" := by
  rw [convert_values_getD (convert_values xline dtf) dtf i, convert_values_length,
    convert_values_getD xline dtf i]
  by_cases h : i < xline.length
  · rw [if_pos h, if_pos h]
    exact convert_item_idem dtf i (xline.getD i "") hAmt hDte
  · rw [if_neg h, if_neg h]

/-- C2 amended, witness: index 5 of `rec1` is a fixed point of the
second application. -/
theorem normalizer_idempotent_except_amount_date_fields_witness :
    (convert_values (convert_values rec1 "DDMMYYYY") "DDMMYYYY").getD 5 "" =
      (convert_values rec1 "DDMMYYYY").getD 5 "" :=
  normalizer_idempotent_except_amount_date_fields rec1 "DDMMYYYY" 5
    (by decide) (by decide)

/-!
## Claim C4 (corrected): the terminal close hardcodes balance type `F`
-/

/-- C4 counterexample: the closing-balance type of the last record is
not taken from the record.  For the single record `recM`, whose
normalized closing-balance type (field 18) is `M`, the terminal close
emits `:62F:...` - the literal `F` of source line 239 - and not the
`:62M:...` tag that the claim (type taken from that record) would
require. -/
theorem final_close_ignores_record_type :
    (convert_values recM "DDMMYYYY").getD 18 "" = "M" ∧
    finalStrs (gen_mt9 cfgI [recM]) = [":62F:D151015EUR1618033,89\n"] ∧
    (":62F:D151015EUR1618033,89\n" : String) ≠
      ":62" ++ (convert_values recM "DDMMYYYY").getD 18 "" ++ ":D151015EUR1618033,89\n" := by
  refine ⟨by decide, by rfl, by decide⟩

/-!
## Claim C5 (corrected): the BIC comparison is not case-insensitive
-/

/-- C5 counterexample: the message-boundary check compares the stored
raw BIC of the previous record with the upper-cased BIC of the incoming
record (source lines 149 and 225-226).  For two identical records whose
BICs are lower case, the stored `bankdeff` differs from the comparison
value `BANKDEFF`, so a message trailer and a second full message header
are emitted between the two records, although their BIC pairs are equal
(even without case folding). -/
theorem bic_comparison_not_case_insensitive :
    gen_mt9 cfgI [recLow, recLow] = Except.ok (okOut (gen_mt9 cfgI [recLow, recLow])) ∧
    (okOut (gen_mt9 cfgI [recLow, recLow])).countP isBasicHeaderE = 2 ∧
    (okOut (gen_mt9 cfgI [recLow, recLow])).countP isMsgTrailerE = 1 := by
  refine ⟨by rfl, by decide, by decide⟩

/-!
## Structural lemmas about one step of the assembler
-/

theorem pyUpper_ne_empty (s : String) (h : s ≠ "") : pyUpper s ≠ "" := by
  intro hc
  apply h
  cases s with
  | mk l =>
    cases l with
    | nil => rfl
    | cons a t =>
      have hd := congrArg String.data hc
      simp [pyUpper] at hd

/-- A normalized record keeps its raw value at every pass-through
index (in particular the BICs at 0 and 1, the account at 2, the page
number at 4, the supplementary text at 16, the reference-4 at 25 and
the TRN at 26). -/
theorem convert_values_getD_id (xline : List String) (dtf : String) (i : Nat)
    (hCase : ¬ (i = 5 ∨ i = 6 ∨ i = 11 ∨ i = 17 ∨ i = 18 ∨ i = 21))
    (hAmt : ¬ (i = 8 ∨ i = 12 ∨ i = 20 ∨ i = 23))
    (hDte : ¬ (i = 7 ∨ i = 9 ∨ i = 10 ∨ i = 19 ∨ i = 22)) :
    (convert_values xline dtf).getD i "" = xline.getD i "" := by
  rw [convert_values_getD]
  by_cases h : i < xline.length
  · rw [if_pos h, convert_item_id dtf i _ hCase hAmt hDte]
  · rw [if_neg h, List.getD_eq_default]
    omega

theorem processLine_ok_elim (cfg : Config) (st : GenState) (l : List String)
    (st2 : GenState) (out : List Emit)
    (hok : processLine cfg st l = Except.ok (st2, out)) :
    st2 = ⟨nextPrev l, (openEmits st.trn st.prev l).2, some l⟩ ∧
    out = closeEmits st.prev l ++ msgEmits cfg st.prev l ++
      (openEmits st.trn st.prev l).1 ++ detailEmits cfg l := by
  unfold processLine at hok
  split_ifs at hok
  simp only [Except.ok.injEq, Prod.mk.injEq] at hok
  exact ⟨hok.1.symm, hok.2.symm⟩

theorem step_ok_elim (cfg : Config) (st : GenState) (line : List String)
    (st2 : GenState) (out : List Emit)
    (hok : step cfg st line = Except.ok (st2, out)) :
    (st2 = st ∧ out = [] ∧ (headerSentinel line ∨ line.headD "" = "")) ∨
    (¬ (headerSentinel line ∨ line.headD "" = "") ∧ line.length = 27 ∧
      processLine cfg st (convert_values line cfg.dtf) = Except.ok (st2, out)) := by
  unfold step at hok
  split_ifs at hok with h1 h2 h3 h4
  · simp only [Except.ok.injEq, Prod.mk.injEq] at hok
    exact Or.inl ⟨hok.1.symm, hok.2.symm, h3⟩
  · exact Or.inr ⟨h3, by omega, hok⟩

theorem headD_eq_getD (l : List String) : l.headD "" = l.getD 0 "" := by
  cases l <;> rfl

/-!
## Counting headers and trailers in each emission segment
-/

theorem closeEmits_counts (prev : PrevLine) (l : List String) :
    (closeEmits prev l).countP isBasicHeaderE = 0 ∧
    (closeEmits prev l).countP isAppHeaderE = 0 ∧
    (closeEmits prev l).countP isUserHeaderE = 0 ∧
    (closeEmits prev l).countP isTrailerE = 0 := by
  unfold closeEmits
  split_ifs <;>
    simp [isBasicHeaderE, isAppHeaderE, isUserHeaderE, isTrailerE, List.countP_cons]

theorem msgEmits_counts (cfg : Config) (prev : PrevLine) (l : List String) :
    (msgEmits cfg prev l).countP isBasicHeaderE = (if newMsgTest prev l then 1 else 0) ∧
    (msgEmits cfg prev l).countP isAppHeaderE = (if newMsgTest prev l then 1 else 0) ∧
    (msgEmits cfg prev l).countP isUserHeaderE = (if newMsgTest prev l then 1 else 0) ∧
    (msgEmits cfg prev l).countP isTrailerE =
      (if newMsgTest prev l ∧ prev.sendbic ≠ "" then 1 else 0) := by
  unfold msgEmits
  split_ifs with h1 h2 <;>
    simp_all [isBasicHeaderE, isAppHeaderE, isUserHeaderE, isTrailerE,
      List.countP_cons, List.countP_append]

theorem openEmits_counts (trn : Nat) (prev : PrevLine) (l : List String) :
    ((openEmits trn prev l).1).countP isBasicHeaderE = 0 ∧
    ((openEmits trn prev l).1).countP isAppHeaderE = 0 ∧
    ((openEmits trn prev l).1).countP isUserHeaderE = 0 ∧
    ((openEmits trn prev l).1).countP isTrailerE = 0 := by
  unfold openEmits trnEmit
  split_ifs <;>
    simp [isBasicHeaderE, isAppHeaderE, isUserHeaderE, isTrailerE, List.countP_cons]

theorem detailEmits_counts (cfg : Config) (l : List String) :
    (detailEmits cfg l).countP isBasicHeaderE = 0 ∧
    (detailEmits cfg l).countP isAppHeaderE = 0 ∧
    (detailEmits cfg l).countP isUserHeaderE = 0 ∧
    (detailEmits cfg l).countP isTrailerE = 0 := by
  unfold detailEmits
  split_ifs <;>
    simp [isBasicHeaderE, isAppHeaderE, isUserHeaderE, isTrailerE,
      List.countP_cons, List.countP_append]

theorem processLine_counts (cfg : Config) (st : GenState) (l : List String)
    (st2 : GenState) (out : List Emit)
    (hok : processLine cfg st l = Except.ok (st2, out)) :
    out.countP isBasicHeaderE = (if newMsgTest st.prev l then 1 else 0) ∧
    out.countP isAppHeaderE = (if newMsgTest st.prev l then 1 else 0) ∧
    out.countP isUserHeaderE = (if newMsgTest st.prev l then 1 else 0) ∧
    out.countP isTrailerE = (if newMsgTest st.prev l ∧ st.prev.sendbic ≠ "" then 1 else 0) := by
  obtain ⟨-, hout⟩ := processLine_ok_elim cfg st l st2 out hok
  subst hout
  have hc := closeEmits_counts st.prev l
  have hm := msgEmits_counts cfg st.prev l
  have ho := openEmits_counts st.trn st.prev l
  have hd := detailEmits_counts cfg l
  simp only [List.countP_append]
  refine ⟨?_, ?_, ?_, ?_⟩ <;> omega

/-- After a processed (non-skipped) record, the stored send BIC is the
raw first field of the record, which is non-empty. -/
theorem step_processed_sendbic (cfg : Config) (st : GenState) (line : List String)
    (st2 : GenState) (out : List Emit)
    (hskip : ¬ (headerSentinel line ∨ line.headD "" = ""))
    (hpl : processLine cfg st (convert_values line cfg.dtf) = Except.ok (st2, out)) :
    st2.prev.sendbic = (convert_values line cfg.dtf).getD 0 "" ∧
    st2.prev.sendbic = line.getD 0 "" ∧ st2.prev.sendbic ≠ "" ∧
    st2.lst_line = some (convert_values line cfg.dtf) := by
  obtain ⟨hst, -⟩ := processLine_ok_elim cfg st _ st2 out hpl
  have h0 : (convert_values line cfg.dtf).getD 0 "" = line.getD 0 "" :=
    convert_values_getD_id line cfg.dtf 0 (by decide) (by decide) (by decide)
  have hne : line.getD 0 "" ≠ "" := by
    rw [← headD_eq_getD]
    intro hc
    exact hskip (Or.inr hc)
  subst hst
  refine ⟨rfl, ?_, ?_, rfl⟩
  · show (nextPrev (convert_values line cfg.dtf)).sendbic = line.getD 0 ""
    rw [show (nextPrev (convert_values line cfg.dtf)).sendbic =
      (convert_values line cfg.dtf).getD 0 "" from rfl, h0]
  · show (nextPrev (convert_values line cfg.dtf)).sendbic ≠ ""
    rw [show (nextPrev (convert_values line cfg.dtf)).sendbic =
      (convert_values line cfg.dtf).getD 0 "" from rfl, h0]
    exact hne

/-- One step preserves the header/trailer balance: the number of
emitted basic headers plus the open-message indicator of the incoming
state equals the number of emitted trailers plus the open-message
indicator of the outgoing state; application and user header blocks
are emitted in lockstep with basic headers; and whenever `lst_line` is
set a message is open. -/
theorem step_framing (cfg : Config) (st : GenState) (line : List String)
    (st2 : GenState) (out : List Emit)
    (hok : step cfg st line = Except.ok (st2, out))
    (hP : ∀ l, st.lst_line = some l → st.prev.sendbic ≠ "") :
    out.countP isAppHeaderE = out.countP isBasicHeaderE ∧
    out.countP isUserHeaderE = out.countP isBasicHeaderE ∧
    out.countP isBasicHeaderE + (if st.prev.sendbic = "" then 0 else 1)
      = out.countP isTrailerE + (if st2.prev.sendbic = "" then 0 else 1) ∧
    (∀ l, st2.lst_line = some l → st2.prev.sendbic ≠ "") := by
  rcases step_ok_elim cfg st line st2 out hok with ⟨hst, hout, -⟩ | ⟨hskip, -, hpl⟩
  · subst hst
    subst hout
    exact ⟨by simp, by simp, rfl, hP⟩
  · obtain ⟨hcb, hca, hcu, hct⟩ := processLine_counts cfg st _ st2 out hpl
    obtain ⟨-, -, hsne, hlst⟩ := step_processed_sendbic cfg st line st2 out hskip hpl
    have hδ2 : (if st2.prev.sendbic = "" then 0 else 1) = 1 := if_neg hsne
    refine ⟨by rw [hca, hcb], by rw [hcu, hcb], ?_, ?_⟩
    · by_cases hmsg : newMsgTest st.prev (convert_values line cfg.dtf)
      · have hmB : (if newMsgTest st.prev (convert_values line cfg.dtf) then 1 else 0)
            = 1 := if_pos hmsg
        by_cases hsb : st.prev.sendbic = ""
        · have hmT : (if newMsgTest st.prev (convert_values line cfg.dtf) ∧
              st.prev.sendbic ≠ "" then 1 else 0) = 0 := by
            rw [if_neg]
            intro hand
            exact hand.2 hsb
          have hδ1 : (if st.prev.sendbic = "" then 0 else 1) = 0 := if_pos hsb
          omega
        · have hmT : (if newMsgTest st.prev (convert_values line cfg.dtf) ∧
              st.prev.sendbic ≠ "" then 1 else 0) = 1 := if_pos ⟨hmsg, hsb⟩
          have hδ1 : (if st.prev.sendbic = "" then 0 else 1) = 1 := if_neg hsb
          omega
      · have hmB : (if newMsgTest st.prev (convert_values line cfg.dtf) then 1 else 0)
            = 0 := if_neg hmsg
        have hmT : (if newMsgTest st.prev (convert_values line cfg.dtf) ∧
            st.prev.sendbic ≠ "" then 1 else 0) = 0 := by
          rw [if_neg]
          intro hand
          exact hmsg hand.1
        have hδ1 : (if st.prev.sendbic = "" then 0 else 1) = 1 := by
          rw [if_neg]
          unfold newMsgTest at hmsg
          push_neg at hmsg
          rw [hmsg.1]
          apply pyUpper_ne_empty
          rw [convert_values_getD_id line cfg.dtf 0 (by decide) (by decide) (by decide),
            ← headD_eq_getD]
          intro hc
          exact hskip (Or.inr hc)
        omega
    · intro l hl
      exact hsne

/-- The loop preserves the header/trailer balance and the
open-message invariant. -/
theorem runLines_framing (cfg : Config) (lines : List (List String)) :
    ∀ (st st2 : GenState) (out : List Emit),
    runLines cfg st lines = Except.ok (st2, out) →
    (∀ l, st.lst_line = some l → st.prev.sendbic ≠ "") →
    out.countP isAppHeaderE = out.countP isBasicHeaderE ∧
    out.countP isUserHeaderE = out.countP isBasicHeaderE ∧
    out.countP isBasicHeaderE + (if st.prev.sendbic = "" then 0 else 1)
      = out.countP isTrailerE + (if st2.prev.sendbic = "" then 0 else 1) ∧
    (∀ l, st2.lst_line = some l → st2.prev.sendbic ≠ "") := by
  induction lines with
  | nil =>
    intro st st2 out hok hP
    unfold runLines at hok
    simp only [Except.ok.injEq, Prod.mk.injEq] at hok
    obtain ⟨hst, hout⟩ := hok
    subst hst
    subst hout
    exact ⟨by simp, by simp, rfl, hP⟩
  | cons line rest ih =>
    intro st st2 out hok hP
    cases hstep : step cfg st line with
    | error e =>
      simp only [runLines, hstep] at hok
      exact Except.noConfusion hok
    | ok p =>
      obtain ⟨stm, out1⟩ := p
      cases hrun : runLines cfg stm rest with
      | error e =>
        simp only [runLines, hstep, hrun] at hok
        exact Except.noConfusion hok
      | ok q =>
        obtain ⟨st3, out2⟩ := q
        simp only [runLines, hstep, hrun, Except.ok.injEq, Prod.mk.injEq] at hok
        obtain ⟨hst, hout⟩ := hok
        obtain ⟨ha1, hu1, hb1, hP1⟩ := step_framing cfg st line stm out1 hstep hP
        obtain ⟨ha2, hu2, hb2, hP2⟩ := ih stm st3 out2 hrun hP1
        subst hst
        subst hout
        simp only [List.countP_append]
        exact ⟨by omega, by omega, by omega, hP2⟩

/-- The terminal close (a successful `finalize`) emits no header
block and exactly one trailer, and requires `lst_line` to be set. -/
theorem finalize_counts (cfg : Config) (st : GenState) (out2 : List Emit)
    (hok : finalize cfg st = Except.ok out2) :
    out2.countP isBasicHeaderE = 0 ∧
    out2.countP isAppHeaderE = 0 ∧
    out2.countP isUserHeaderE = 0 ∧
    out2.countP isTrailerE = 1 ∧
    ∃ l, st.lst_line = some l := by
  unfold finalize at hok
  cases hl : st.lst_line with
  | none => rw [hl] at hok; exact absurd hok (by simp)
  | some l =>
    rw [hl] at hok
    simp only [Except.ok.injEq] at hok
    subst hok
    refine ⟨?_, ?_, ?_, ?_, l, rfl⟩ <;>
      split_ifs <;>
        simp [isBasicHeaderE, isAppHeaderE, isUserHeaderE, isTrailerE,
          List.countP_cons, List.countP_append]

/-- C1: message framing.  On every run of the assembler that
completes, the number of emitted basic header blocks equals the number
of emitted message trailers (loop trailers plus the terminal trailer),
and application and user header blocks are emitted in the same number:
every opened message is closed exactly once, including the final one
via the unconditional terminal close. -/
theorem message_framing (cfg : Config) (lines : List (List String)) (out : List Emit)
    (hok : gen_mt9 cfg lines = Except.ok out) :
    out.countP isBasicHeaderE = out.countP isTrailerE ∧
    out.countP isAppHeaderE = out.countP isTrailerE ∧
    out.countP isUserHeaderE = out.countP isTrailerE := by
  cases hrun : runLines cfg initState lines with
  | error e =>
    simp only [gen_mt9, hrun] at hok
    exact Except.noConfusion hok
  | ok p =>
    obtain ⟨st, body⟩ := p
    cases hfin : finalize cfg st with
    | error e =>
      simp only [gen_mt9, hrun, hfin] at hok
      exact Except.noConfusion hok
    | ok fin =>
      simp only [gen_mt9, hrun, hfin, Except.ok.injEq] at hok
      subst hok
      obtain ⟨ha, hu, hb, hP⟩ := runLines_framing cfg lines initState st body hrun
        (by intro l hl; exact absurd hl (by simp [initState]))
      obtain ⟨hfb, hfa, hfu, hft, l, hl⟩ := finalize_counts cfg st fin hfin
      have hδ : (if st.prev.sendbic = "" then 0 else 1) = 1 := if_neg (hP l hl)
      have hδ0 : (if initState.prev.sendbic = "" then 0 else 1) = 0 := if_pos rfl
      rw [hδ, hδ0] at hb
      simp only [List.countP_append]
      omega

/-- C1 witness: a concrete run with a message boundary between the
two records, in which two headers and two trailers are emitted. -/
theorem message_framing_witness :
    (okOut (gen_mt9 cfgI [recLow, rec1])).countP isBasicHeaderE =
      (okOut (gen_mt9 cfgI [recLow, rec1])).countP isTrailerE ∧
    (okOut (gen_mt9 cfgI [recLow, rec1])).countP isBasicHeaderE = 2 :=
  ⟨(message_framing cfgI [recLow, rec1] (okOut (gen_mt9 cfgI [recLow, rec1])) (by rfl)).1,
   by decide⟩

/-- C5 amended: the message-boundary check of source line 149 compares
the raw stored BICs of the previous record with the upper-cased BICs of
the incoming record (it is not symmetric case folding, see
`bic_comparison_not_case_insensitive`).  Whenever the stored BIC pair
equals the upper-cased incoming BIC pair - in particular for two
consecutive records with equal, already upper-case BICs - the step for
the incoming record emits no message trailer and no header block. -/
theorem no_message_boundary_when_stored_bics_match
    (cfg : Config) (st : GenState) (line : List String)
    (st2 : GenState) (out : List Emit)
    (hok : step cfg st line = Except.ok (st2, out))
    (hs : st.prev.sendbic = pyUpper (line.getD 0 ""))
    (hr : st.prev.recvbic = pyUpper (line.getD 1 "")) :
    out.countP isBasicHeaderE = 0 ∧
    out.countP isAppHeaderE = 0 ∧
    out.countP isUserHeaderE = 0 ∧
    out.countP isTrailerE = 0 := by
  rcases step_ok_elim cfg st line st2 out hok with ⟨-, hout, -⟩ | ⟨-, -, hpl⟩
  · subst hout
    exact ⟨rfl, rfl, rfl, rfl⟩
  · obtain ⟨hcb, hca, hcu, hct⟩ := processLine_counts cfg st _ st2 out hpl
    have h0 : (convert_values line cfg.dtf).getD 0 "" = line.getD 0 "" :=
      convert_values_getD_id line cfg.dtf 0 (by decide) (by decide) (by decide)
    have h1 : (convert_values line cfg.dtf).getD 1 "" = line.getD 1 "" :=
      convert_values_getD_id line cfg.dtf 1 (by decide) (by decide) (by decide)
    have hmsg : ¬ newMsgTest st.prev (convert_values line cfg.dtf) := by
      unfold newMsgTest
      push_neg
      rw [h0, h1]
      exact ⟨hs, hr⟩
    rw [hcb, hca, hcu, hct, if_neg hmsg, if_neg (fun hand => hmsg hand.1)]
    exact ⟨rfl, rfl, rfl, rfl⟩

/-- C5 amended, witness: processing `rec1` again in the context left
by `rec1` emits no boundary tags. -/
theorem no_message_boundary_when_stored_bics_match_witness :
    (stepOut (step cfgI stW rec1)).countP isBasicHeaderE = 0 ∧
    (stepOut (step cfgI stW rec1)).countP isAppHeaderE = 0 ∧
    (stepOut (step cfgI stW rec1)).countP isUserHeaderE = 0 ∧
    (stepOut (step cfgI stW rec1)).countP isTrailerE = 0 :=
  no_message_boundary_when_stored_bics_match cfgI stW rec1
    (stepSt (step cfgI stW rec1)) (stepOut (step cfgI stW rec1))
    (by rfl) (by decide) (by decide)

/-!
## Membership of the `:86:` information tag (claim C8)
-/

theorem info86_not_mem_closeEmits (prev : PrevLine) (l : List String) (s : String) :
    Emit.info86 s ∉ closeEmits prev l := by
  unfold closeEmits
  split_ifs <;> simp

theorem info86_not_mem_msgEmits (cfg : Config) (prev : PrevLine) (l : List String)
    (s : String) : Emit.info86 s ∉ msgEmits cfg prev l := by
  unfold msgEmits
  split_ifs <;> simp

theorem info86_not_mem_openEmits (trn : Nat) (prev : PrevLine) (l : List String)
    (s : String) : Emit.info86 s ∉ (openEmits trn prev l).1 := by
  unfold openEmits trnEmit
  split_ifs <;> simp

theorem info86_mem_detailEmits (cfg : Config) (l : List String) :
    (∃ s, Emit.info86 s ∈ detailEmits cfg l) ↔
      (cfg.msg_type = "940" ∧ l.getD 25 "" ≠ "" ∧ ¬ pyIsSpace (l.getD 25 "") = true) := by
  unfold detailEmits
  split_ifs with h1 h2 <;> simp_all

/-- C8: a `:86:` information tag is emitted for a processed record if
and only if the configured message type is `940` and the record's
reference-4 field (field 25, passed through unchanged by the
normalizer) is non-empty and not whitespace-only.  In particular with
message type `950` no information tag is ever emitted, and with `940`
a blank reference-4 field emits none. -/
theorem info_tag_iff_940_and_ref4
    (cfg : Config) (st : GenState) (line : List String)
    (st2 : GenState) (out : List Emit)
    (hok : step cfg st line = Except.ok (st2, out))
    (hskip : ¬ (headerSentinel line ∨ line.headD "" = "")) :
    (∃ s, Emit.info86 s ∈ out) ↔
      (cfg.msg_type = "940" ∧ line.getD 25 "" ≠ "" ∧
        ¬ pyIsSpace (line.getD 25 "") = true) := by
  rcases step_ok_elim cfg st line st2 out hok with ⟨-, -, hsk⟩ | ⟨-, -, hpl⟩
  · exact absurd hsk hskip
  · obtain ⟨-, hout⟩ := processLine_ok_elim cfg st _ st2 out hpl
    subst hout
    have h25 : (convert_values line cfg.dtf).getD 25 "" = line.getD 25 "" :=
      convert_values_getD_id line cfg.dtf 25 (by decide) (by decide) (by decide)
    rw [← h25, ← info86_mem_detailEmits cfg (convert_values line cfg.dtf)]
    constructor
    · rintro ⟨s, hs⟩
      simp only [List.mem_append] at hs
      rcases hs with ((hc | hm) | ho) | hd
      · exact absurd hc (info86_not_mem_closeEmits _ _ s)
      · exact absurd hm (info86_not_mem_msgEmits cfg _ _ s)
      · exact absurd ho (info86_not_mem_openEmits _ _ _ s)
      · exact ⟨s, hd⟩
    · rintro ⟨s, hs⟩
      refine ⟨s, ?_⟩
      simp only [List.mem_append]
      exact Or.inr hs

/-- C8 witness: `rec1` (message type 940, non-blank reference-4 field)
does emit an information tag. -/
theorem info_tag_iff_940_and_ref4_witness :
    ∃ s, Emit.info86 s ∈ stepOut (step cfgI initState rec1) :=
  (info_tag_iff_940_and_ref4 cfgI initState rec1
      (stepSt (step cfgI initState rec1)) (stepOut (step cfgI initState rec1))
      (by rfl) (by decide)).mpr (by decide)

/-!
## Membership of the balance tags (claim C7)
-/

theorem pageClose_mem_closeEmits (prev : PrevLine) (l : List String) :
    (∃ s, Emit.pageClose s ∈ closeEmits prev l) ↔
      (newPageTest prev l ∧ prev.account ≠ "") := by
  unfold closeEmits newPageTest
  split_ifs with h <;> (simp_all; try tauto)

theorem availBal_mem_closeEmits (prev : PrevLine) (l : List String) :
    (∃ s, Emit.availBal s ∈ closeEmits prev l) ↔
      (newPageTest prev l ∧ prev.account ≠ "" ∧ prev.abalsgn ≠ "") := by
  unfold closeEmits newPageTest
  split_ifs with h h2 <;> (simp_all; try tauto)

theorem pageClose_not_mem_rest (cfg : Config) (trn : Nat) (prev : PrevLine)
    (l : List String) (s : String) :
    Emit.pageClose s ∉ msgEmits cfg prev l ∧
    Emit.pageClose s ∉ (openEmits trn prev l).1 ∧
    Emit.pageClose s ∉ detailEmits cfg l := by
  unfold msgEmits openEmits trnEmit detailEmits
  refine ⟨?_, ?_, ?_⟩ <;> split_ifs <;> simp

theorem availBal_not_mem_rest (cfg : Config) (trn : Nat) (prev : PrevLine)
    (l : List String) (s : String) :
    Emit.availBal s ∉ msgEmits cfg prev l ∧
    Emit.availBal s ∉ (openEmits trn prev l).1 ∧
    Emit.availBal s ∉ detailEmits cfg l := by
  unfold msgEmits openEmits trnEmit detailEmits
  refine ⟨?_, ?_, ?_⟩ <;> split_ifs <;> simp

/-- C7: balance pairing.  First part, in-loop page closes: a step
emits a closing-balance tag exactly when it processes a data record
that triggers the page boundary with an open page, and it emits an
available-balance `:64:` tag exactly when it emits a closing-balance
tag and the available-balance sign stored in the context is non-empty;
after a processed record the context stores that record's
available-balance sign (field 21).  Second part, the terminal close:
it always emits a closing-balance tag, and it emits an
available-balance tag exactly when field 21 of the last record is
non-empty. -/
theorem balance_pairing :
    (∀ (cfg : Config) (st : GenState) (line : List String) (st2 : GenState)
        (out : List Emit), step cfg st line = Except.ok (st2, out) →
      (((∃ s, Emit.pageClose s ∈ out) ↔
          (¬ (headerSentinel line ∨ line.headD "" = "") ∧
            newPageTest st.prev (convert_values line cfg.dtf) ∧ st.prev.account ≠ "")) ∧
        ((∃ s, Emit.availBal s ∈ out) ↔
          ((∃ s, Emit.pageClose s ∈ out) ∧ st.prev.abalsgn ≠ "")) ∧
        (¬ (headerSentinel line ∨ line.headD "" = "") →
          st2.prev.abalsgn = (convert_values line cfg.dtf).getD 21 ""))) ∧
    (∀ (cfg : Config) (st : GenState) (out2 : List Emit),
        finalize cfg st = Except.ok out2 →
      ((∃ s, Emit.finalClose s ∈ out2) ∧
        ((∃ s, Emit.finalAvail s ∈ out2) ↔
          (∃ l, st.lst_line = some l ∧ l.getD 21 "" ≠ "")))) := by
  constructor
  · intro cfg st line st2 out hok
    rcases step_ok_elim cfg st line st2 out hok with ⟨hst, hout, hsk⟩ | ⟨hskip, -, hpl⟩
    · subst hst
      subst hout
      refine ⟨Iff.intro (fun h => absurd h (by simp)) (fun h => absurd hsk h.1),
        by simp, fun hns => absurd hsk hns⟩
    · obtain ⟨hst, hout⟩ := processLine_ok_elim cfg st _ st2 out hpl
      subst hout
      have hmem : ∀ s : String, (Emit.pageClose s ∈ closeEmits st.prev
          (convert_values line cfg.dtf) ++ msgEmits cfg st.prev (convert_values line cfg.dtf) ++
          (openEmits st.trn st.prev (convert_values line cfg.dtf)).1 ++
          detailEmits cfg (convert_values line cfg.dtf)) ↔
          Emit.pageClose s ∈ closeEmits st.prev (convert_values line cfg.dtf) := by
        intro s
        obtain ⟨hm, ho, hd⟩ := pageClose_not_mem_rest cfg st.trn st.prev
          (convert_values line cfg.dtf) s
        simp only [List.mem_append]
        constructor
        · rintro (((h | h) | h) | h)
          · exact h
          · exact absurd h hm
          · exact absurd h ho
          · exact absurd h hd
        · intro h
          exact Or.inl (Or.inl (Or.inl h))
      have hmemA : ∀ s : String, (Emit.availBal s ∈ closeEmits st.prev
          (convert_values line cfg.dtf) ++ msgEmits cfg st.prev (convert_values line cfg.dtf) ++
          (openEmits st.trn st.prev (convert_values line cfg.dtf)).1 ++
          detailEmits cfg (convert_values line cfg.dtf)) ↔
          Emit.availBal s ∈ closeEmits st.prev (convert_values line cfg.dtf) := by
        intro s
        obtain ⟨hm, ho, hd⟩ := availBal_not_mem_rest cfg st.trn st.prev
          (convert_values line cfg.dtf) s
        simp only [List.mem_append]
        constructor
        · rintro (((h | h) | h) | h)
          · exact h
          · exact absurd h hm
          · exact absurd h ho
          · exact absurd h hd
        · intro h
          exact Or.inl (Or.inl (Or.inl h))
      refine ⟨?_, ?_, ?_⟩
      · rw [show (∃ s, Emit.pageClose s ∈ closeEmits st.prev (convert_values line cfg.dtf) ++
            msgEmits cfg st.prev (convert_values line cfg.dtf) ++
            (openEmits st.trn st.prev (convert_values line cfg.dtf)).1 ++
            detailEmits cfg (convert_values line cfg.dtf)) ↔
            (∃ s, Emit.pageClose s ∈ closeEmits st.prev (convert_values line cfg.dtf))
          from exists_congr hmem, pageClose_mem_closeEmits]
        constructor
        · intro h
          exact ⟨hskip, h⟩
        · intro h
          exact h.2
      · rw [show (∃ s, Emit.availBal s ∈ closeEmits st.prev (convert_values line cfg.dtf) ++
            msgEmits cfg st.prev (convert_values line cfg.dtf) ++
            (openEmits st.trn st.prev (convert_values line cfg.dtf)).1 ++
            detailEmits cfg (convert_values line cfg.dtf)) ↔
            (∃ s, Emit.availBal s ∈ closeEmits st.prev (convert_values line cfg.dtf))
          from exists_congr hmemA, availBal_mem_closeEmits,
          show (∃ s, Emit.pageClose s ∈ closeEmits st.prev (convert_values line cfg.dtf) ++
            msgEmits cfg st.prev (convert_values line cfg.dtf) ++
            (openEmits st.trn st.prev (convert_values line cfg.dtf)).1 ++
            detailEmits cfg (convert_values line cfg.dtf)) ↔
            (∃ s, Emit.pageClose s ∈ closeEmits st.prev (convert_values line cfg.dtf))
          from exists_congr hmem, pageClose_mem_closeEmits]
        constructor
        · rintro ⟨h1, h2, h3⟩
          exact ⟨⟨h1, h2⟩, h3⟩
        · rintro ⟨⟨h1, h2⟩, h3⟩
          exact ⟨h1, h2, h3⟩
      · intro hns
        subst hst
        rfl
  · intro cfg st out2 hok
    unfold finalize at hok
    cases hl : st.lst_line with
    | none =>
      rw [hl] at hok
      exact Except.noConfusion hok
    | some l =>
      rw [hl] at hok
      simp only [Except.ok.injEq] at hok
      subst hok
      constructor
      · exact ⟨_, List.mem_cons_self _ _⟩
      · split_ifs with h21 <;> simp_all

/-- C7 witness: processing the page-2 record in the context left by
`rec1` (open page, non-empty stored available-balance sign) emits both
a closing-balance and an available-balance tag. -/
theorem balance_pairing_witness :
    (∃ s, Emit.pageClose s ∈ stepOut (step cfgI stW recPg2)) ∧
    (∃ s, Emit.availBal s ∈ stepOut (step cfgI stW recPg2)) := by
  have h := balance_pairing.1 cfgI stW recPg2
    (stepSt (step cfgI stW recPg2)) (stepOut (step cfgI stW recPg2)) (by rfl)
  have hpc : ∃ s, Emit.pageClose s ∈ stepOut (step cfgI stW recPg2) :=
    h.1.mpr ⟨by decide, by decide, by decide⟩
  exact ⟨hpc, h.2.1.mpr ⟨hpc, by decide⟩⟩

/-!
## Claim C10: inputs with no data rows crash at the terminal close
-/

/-- A well-formed skipped row (header sentinel or empty first field,
at least two fields so that `line[-2]` and `line[0]` exist) leaves the
state unchanged and emits nothing. -/
theorem step_skip_row (cfg : Config) (st : GenState) (line : List String)
    (hlen : 2 ≤ line.length)
    (hskip : headerSentinel line ∨ line.headD "" = "") :
    step cfg st line = Except.ok (st, []) := by
  have h1 : ¬ (line = []) := by
    intro h
    subst h
    simp at hlen
  have h2 : ¬ (line.length = 1) := by omega
  unfold step
  rw [if_neg h1, if_neg h2, if_pos hskip]

theorem runLines_all_skip (cfg : Config) (lines : List (List String))
    (h : ∀ line ∈ lines, 2 ≤ line.length ∧
      (headerSentinel line ∨ line.headD "" = "")) :
    ∀ st, runLines cfg st lines = Except.ok (st, []) := by
  induction lines with
  | nil => intro st; rfl
  | cons line rest ih =>
    intro st
    have hl := h line (List.mem_cons_self line rest)
    have hstep := step_skip_row cfg st line hl.1 hl.2
    have hrest := ih (fun l hl2 => h l (List.mem_cons_of_mem line hl2)) st
    simp only [runLines, hstep, hrest, List.nil_append]

/-- C10: an input containing no data rows - empty, or consisting only
of header-sentinel rows and rows with an empty first field - does not
produce a well-formed empty output: the loop leaves `lst_line` as
`None`, and the unconditional terminal close dereferences it
(`lst_line[17]`, source line 239), so the run fails at finalization
with a `TypeError` instead of returning normally. -/
theorem no_data_rows_fails_at_finalize (cfg : Config) (lines : List (List String))
    (h : ∀ line ∈ lines, 2 ≤ line.length ∧
      (headerSentinel line ∨ line.headD "" = "")) :
    gen_mt9 cfg lines =
      Except.error "TypeError: NoneType object is not subscriptable" := by
  have hrun := runLines_all_skip cfg lines h initState
  simp only [gen_mt9, hrun]
  rfl

/-- C10 witness: a header row followed by a blank-first-field row. -/
theorem no_data_rows_fails_at_finalize_witness :
    gen_mt9 cfgI [hdrRow, ["", "x"]] =
      Except.error "TypeError: NoneType object is not subscriptable" :=
  no_data_rows_fails_at_finalize cfgI [hdrRow, ["", "x"]] (by decide)

/-!
## Claim C6: TRN auto-generation
-/

theorem natRangeLen_length (n : Nat) : ∀ a, (natRangeLen a n).length = n := by
  induction n with
  | zero => intro a; rfl
  | succ m ih =>
    intro a
    simp only [natRangeLen, List.length_cons, ih (a + 1)]

theorem natRangeLen_eq_range (n : Nat) :
    ∀ a, natRangeLen a n = (List.range n).map (fun k => a + k) := by
  induction n with
  | zero => intro a; rfl
  | succ m ih =>
    intro a
    rw [show natRangeLen a (m + 1) = a :: natRangeLen (a + 1) m from rfl, ih (a + 1),
      List.range_succ_eq_map, List.map_cons, List.map_map]
    simp only [Nat.add_zero]
    congr 1
    apply List.map_congr_left
    intro k _
    simp only [Function.comp_apply]
    omega

theorem closeEmits_autoRefs (prev : PrevLine) (l : List String) :
    (closeEmits prev l).filterMap autoTrnOf = [] := by
  unfold closeEmits
  split_ifs <;> simp [autoTrnOf]

theorem msgEmits_autoRefs (cfg : Config) (prev : PrevLine) (l : List String) :
    (msgEmits cfg prev l).filterMap autoTrnOf = [] := by
  unfold msgEmits
  split_ifs <;> simp [autoTrnOf]

theorem detailEmits_autoRefs (cfg : Config) (l : List String) :
    (detailEmits cfg l).filterMap autoTrnOf = [] := by
  unfold detailEmits
  split_ifs <;> simp [autoTrnOf]

theorem openEmits_autoRefs (trn : Nat) (prev : PrevLine) (l : List String) :
    ((openEmits trn prev l).1).filterMap autoTrnOf =
      (if newPageTest prev l ∧ blankTrn l then [autoTrnStr trn] else []) := by
  unfold openEmits trnEmit
  split_ifs with h1 h2 <;> simp_all [autoTrnOf]

theorem openEmits_trn (trn : Nat) (prev : PrevLine) (l : List String) :
    (openEmits trn prev l).2 =
      (if newPageTest prev l ∧ blankTrn l then trn + 1 else trn) := by
  unfold openEmits trnEmit
  split_ifs with h1 h2 <;> simp_all

/-- One step either leaves the counter unchanged and emits no
auto-generated reference, or emits exactly the reference built from the
incoming counter value and increments the counter by one. -/
theorem step_autoRefs (cfg : Config) (st : GenState) (line : List String)
    (st2 : GenState) (out : List Emit)
    (hok : step cfg st line = Except.ok (st2, out)) :
    (autoRefs out = [] ∧ st2.trn = st.trn) ∨
    (autoRefs out = [autoTrnStr st.trn] ∧ st2.trn = st.trn + 1) := by
  rcases step_ok_elim cfg st line st2 out hok with ⟨hst, hout, -⟩ | ⟨-, -, hpl⟩
  · subst hst
    subst hout
    exact Or.inl ⟨rfl, rfl⟩
  · obtain ⟨hst, hout⟩ := processLine_ok_elim cfg st _ st2 out hpl
    subst hout
    have htrn : st2.trn = (openEmits st.trn st.prev (convert_values line cfg.dtf)).2 := by
      rw [hst]
    unfold autoRefs
    simp only [List.filterMap_append, closeEmits_autoRefs, msgEmits_autoRefs,
      detailEmits_autoRefs, openEmits_autoRefs, openEmits_trn, List.append_nil,
      List.nil_append, htrn]
    by_cases hc : newPageTest st.prev (convert_values line cfg.dtf) ∧
        blankTrn (convert_values line cfg.dtf)
    · rw [if_pos hc, if_pos hc]
      exact Or.inr ⟨rfl, rfl⟩
    · rw [if_neg hc, if_neg hc]
      exact Or.inl ⟨rfl, rfl⟩

/-- The loop emits exactly the auto-generated references for the
counter interval it consumes, in order. -/
theorem runLines_autoRefs (cfg : Config) (lines : List (List String)) :
    ∀ (st st2 : GenState) (out : List Emit),
    runLines cfg st lines = Except.ok (st2, out) →
    st.trn ≤ st2.trn ∧
    autoRefs out = (natRangeLen st.trn (st2.trn - st.trn)).map autoTrnStr := by
  induction lines with
  | nil =>
    intro st st2 out hok
    unfold runLines at hok
    simp only [Except.ok.injEq, Prod.mk.injEq] at hok
    obtain ⟨hst, hout⟩ := hok
    subst hst
    subst hout
    refine ⟨Nat.le_refl _, ?_⟩
    rw [Nat.sub_self]
    rfl
  | cons line rest ih =>
    intro st st2 out hok
    cases hstep : step cfg st line with
    | error e =>
      simp only [runLines, hstep] at hok
      exact Except.noConfusion hok
    | ok p =>
      obtain ⟨stm, out1⟩ := p
      cases hrun : runLines cfg stm rest with
      | error e =>
        simp only [runLines, hstep, hrun] at hok
        exact Except.noConfusion hok
      | ok q =>
        obtain ⟨st3, out2⟩ := q
        simp only [runLines, hstep, hrun, Except.ok.injEq, Prod.mk.injEq] at hok
        obtain ⟨hst, hout⟩ := hok
        obtain ⟨hle, hrefs⟩ := ih stm st3 out2 hrun
        subst hst
        subst hout
        have happ : autoRefs (out1 ++ out2) = autoRefs out1 ++ autoRefs out2 :=
          List.filterMap_append out1 out2 autoTrnOf
        rcases step_autoRefs cfg st line stm out1 hstep with ⟨h1, h2⟩ | ⟨h1, h2⟩
        · rw [happ, h1, hrefs, List.nil_append, h2]
          exact ⟨by omega, rfl⟩
        · rw [happ, h1, hrefs]
          refine ⟨by omega, ?_⟩
          rw [show st3.trn - st.trn = (st3.trn - stm.trn) + 1 by omega,
            show natRangeLen st.trn ((st3.trn - stm.trn) + 1) =
              st.trn :: natRangeLen (st.trn + 1) (st3.trn - stm.trn) from rfl,
            List.map_cons, h2]
          rfl

theorem finalize_autoRefs (cfg : Config) (st : GenState) (out2 : List Emit)
    (hok : finalize cfg st = Except.ok out2) :
    autoRefs out2 = [] := by
  unfold finalize at hok
  cases hl : st.lst_line with
  | none =>
    rw [hl] at hok
    exact Except.noConfusion hok
  | some l =>
    rw [hl] at hok
    simp only [Except.ok.injEq] at hok
    subst hok
    unfold autoRefs
    split_ifs <;> simp [autoTrnOf]

/-- C6: on every completed run the auto-generated transaction
references are, in encounter order, exactly `autoTrnStr 0`,
`autoTrnStr 1`, ..., `autoTrnStr (N - 1)` - the fixed prefix
`MT94050GEN` followed by the counter value zero-padded to six digits -
where `N` is the number of auto-generated references: they increase
strictly, none is reused, and the counter held by the final loop state
equals `N` (it is incremented exactly once per auto-generated
reference and never when a record supplies its own TRN). -/
theorem trn_auto_generation (cfg : Config) (lines : List (List String))
    (out : List Emit) (hok : gen_mt9 cfg lines = Except.ok out) :
    autoRefs out = (List.range ((autoRefs out).length)).map autoTrnStr ∧
    (∀ st2 body, runLines cfg initState lines = Except.ok (st2, body) →
      st2.trn = (autoRefs out).length) := by
  cases hrun : runLines cfg initState lines with
  | error e =>
    simp only [gen_mt9, hrun] at hok
    exact Except.noConfusion hok
  | ok p =>
    obtain ⟨st, body⟩ := p
    cases hfin : finalize cfg st with
    | error e =>
      simp only [gen_mt9, hrun, hfin] at hok
      exact Except.noConfusion hok
    | ok fin =>
      simp only [gen_mt9, hrun, hfin, Except.ok.injEq] at hok
      subst hok
      obtain ⟨-, hrefs⟩ := runLines_autoRefs cfg lines initState st body hrun
      have hfr := finalize_autoRefs cfg st fin hfin
      have hall : autoRefs (body ++ fin) = autoRefs body := by
        unfold autoRefs
        rw [List.filterMap_append]
        unfold autoRefs at hfr
        rw [hfr, List.append_nil]
      have hinit : initState.trn = 0 := rfl
      have hbody : autoRefs body = (List.range st.trn).map autoTrnStr := by
        rw [hrefs, hinit, Nat.sub_zero, natRangeLen_eq_range]
        simp
      have hlen : (autoRefs (body ++ fin)).length = st.trn := by
        rw [hall, hbody, List.length_map, List.length_range]
      constructor
      · rw [hall, hbody]
        simp
      · intro st2 body2 hrun2
        simp only [Except.ok.injEq, Prod.mk.injEq] at hrun2
        rw [← hrun2.1]
        exact hlen.symm

/-- C6 witness: two page-opening records with blank TRN fields receive
the references `MT94050GEN000000` and `MT94050GEN000001`. -/
theorem trn_auto_generation_witness :
    autoRefs (okOut (gen_mt9 cfgI [rec1, recPg2])) =
      (List.range ((autoRefs (okOut (gen_mt9 cfgI [rec1, recPg2]))).length)).map
        autoTrnStr ∧
    autoRefs (okOut (gen_mt9 cfgI [rec1, recPg2])) =
      [":20:MT94050GEN000000\n", ":20:MT94050GEN000001\n"] :=
  ⟨(trn_auto_generation cfgI [rec1, recPg2]
      (okOut (gen_mt9 cfgI [rec1, recPg2])) (by rfl)).1,
   by decide⟩

/-!
## Claim C4 (corrected): the terminal close and the last record
-/

/-- A successful `finalize` exposes `lst_line` and the exact terminal
emissions: the `:62F:` tag with the literal type `F` and fields 17
(closing-balance sign), 19 (date), 24 (currency), 20 (amount) of the
last record; the `:64:` tag from fields 21, 22, 24, 23 exactly when
field 21 is non-empty; then the trailer. -/
theorem finalize_ok_elim (cfg : Config) (st : GenState) (out2 : List Emit)
    (hok : finalize cfg st = Except.ok out2) :
    ∃ l, st.lst_line = some l ∧
      out2 = Emit.finalClose (":62F:" ++ l.getD 17 "" ++ l.getD 19 "" ++ l.getD 24 "" ++
          l.getD 20 "" ++ "\n") ::
        ((if l.getD 21 "" ≠ "" then
            [Emit.finalAvail (":64:" ++ l.getD 21 "" ++ l.getD 22 "" ++ l.getD 24 "" ++
              l.getD 23 "" ++ "\n")]
          else [])
          ++ [Emit.finalTrailer (trailerStr cfg)]) := by
  unfold finalize at hok
  cases hl : st.lst_line with
  | none =>
    rw [hl] at hok
    exact Except.noConfusion hok
  | some l =>
    rw [hl] at hok
    simp only [Except.ok.injEq] at hok
    exact ⟨l, rfl, hok.symm⟩

theorem lastData_cons (dtf : String) (line : List String) (rest : List (List String)) :
    lastData dtf (line :: rest) =
      (match lastData dtf rest with
        | some l => some l
        | none =>
          if headerSentinel line ∨ line.headD "" = "" then none
          else some (convert_values line dtf)) := rfl

/-- The loop sets `lst_line` to the normalized form of the last data
row of the input, and leaves it unchanged when the input contains no
data row. -/
theorem runLines_lst_line (cfg : Config) (lines : List (List String)) :
    ∀ (st st2 : GenState) (out : List Emit),
    runLines cfg st lines = Except.ok (st2, out) →
    st2.lst_line = (match lastData cfg.dtf lines with
      | some l => some l
      | none => st.lst_line) := by
  induction lines with
  | nil =>
    intro st st2 out hok
    unfold runLines at hok
    simp only [Except.ok.injEq, Prod.mk.injEq] at hok
    rw [← hok.1]
    rfl
  | cons line rest ih =>
    intro st st2 out hok
    cases hstep : step cfg st line with
    | error e =>
      simp only [runLines, hstep] at hok
      exact Except.noConfusion hok
    | ok p =>
      obtain ⟨stm, out1⟩ := p
      cases hrun : runLines cfg stm rest with
      | error e =>
        simp only [runLines, hstep, hrun] at hok
        exact Except.noConfusion hok
      | ok q =>
        obtain ⟨st3, out2⟩ := q
        simp only [runLines, hstep, hrun, Except.ok.injEq, Prod.mk.injEq] at hok
        obtain ⟨hst, -⟩ := hok
        subst hst
        have hih := ih stm st3 out2 hrun
        rcases step_ok_elim cfg st line stm out1 hstep with ⟨hstm, -, hsk⟩ | ⟨hskip, -, hpl⟩
        · subst hstm
          rw [hih, lastData_cons]
          cases hld : lastData cfg.dtf rest with
          | some l => simp only [hld]
          | none =>
            simp only [hld]
            rw [if_pos hsk]
        · obtain ⟨hstm, -⟩ := processLine_ok_elim cfg st _ stm out1 hpl
          rw [hih, lastData_cons, hstm]
          cases hld : lastData cfg.dtf rest with
          | some l => simp only [hld]
          | none =>
            simp only [hld]
            rw [if_neg hskip]

/-- C4 amended: after the last record of every completed run the
assembler unconditionally emits a final closing-balance tag whose type
letter is the literal `F` (not the last record's closing-balance type
field, see `final_close_ignores_record_type`) and whose sign, date,
currency and amount are fields 17, 19, 24, 20 of the last record
itself (the value of `lastData`, not the running context), followed by
an available-balance tag exactly when that record's available-balance
sign (field 21) is non-empty, then the message trailer (checksum tag
if configured, else empty). -/
theorem final_close_from_last_record (cfg : Config) (lines : List (List String))
    (out : List Emit) (st : GenState) (body : List Emit) (l : List String)
    (hok : gen_mt9 cfg lines = Except.ok out)
    (hrun : runLines cfg initState lines = Except.ok (st, body))
    (hl : st.lst_line = some l) :
    lastData cfg.dtf lines = some l ∧
    out = body ++
      (Emit.finalClose (":62F:" ++ l.getD 17 "" ++ l.getD 19 "" ++ l.getD 24 "" ++
          l.getD 20 "" ++ "\n") ::
        ((if l.getD 21 "" ≠ "" then
            [Emit.finalAvail (":64:" ++ l.getD 21 "" ++ l.getD 22 "" ++ l.getD 24 "" ++
              l.getD 23 "" ++ "\n")]
          else [])
          ++ [Emit.finalTrailer (trailerStr cfg)])) := by
  have hlast := runLines_lst_line cfg lines initState st body hrun
  rw [hl] at hlast
  have hld : lastData cfg.dtf lines = some l := by
    cases hcase : lastData cfg.dtf lines with
    | some l2 =>
      rw [hcase] at hlast
      simp only [Option.some.injEq] at hlast
      rw [hlast]
    | none =>
      rw [hcase] at hlast
      exact Option.noConfusion hlast
  refine ⟨hld, ?_⟩
  cases hfin : finalize cfg st with
  | error e =>
    simp only [gen_mt9, hrun, hfin] at hok
    exact Except.noConfusion hok
  | ok fin =>
    simp only [gen_mt9, hrun, hfin, Except.ok.injEq] at hok
    obtain ⟨l2, hl2, hfin2⟩ := finalize_ok_elim cfg st fin hfin
    rw [hl] at hl2
    simp only [Option.some.injEq] at hl2
    subst hl2
    rw [← hok, hfin2]

/-- C4 amended, witness: the single-record run on `rec1`. -/
theorem final_close_from_last_record_witness :
    lastData cfgI.dtf [rec1] = some (convert_values rec1 "DDMMYYYY") ∧
    okOut (gen_mt9 cfgI [rec1]) =
      stepOut (step cfgI initState rec1) ++
      (Emit.finalClose (":62F:" ++ (convert_values rec1 "DDMMYYYY").getD 17 "" ++
          (convert_values rec1 "DDMMYYYY").getD 19 "" ++
          (convert_values rec1 "DDMMYYYY").getD 24 "" ++
          (convert_values rec1 "DDMMYYYY").getD 20 "" ++ "\n") ::
        ((if (convert_values rec1 "DDMMYYYY").getD 21 "" ≠ "" then
            [Emit.finalAvail (":64:" ++ (convert_values rec1 "DDMMYYYY").getD 21 "" ++
              (convert_values rec1 "DDMMYYYY").getD 22 "" ++
              (convert_values rec1 "DDMMYYYY").getD 24 "" ++
              (convert_values rec1 "DDMMYYYY").getD 23 "" ++ "\n")]
          else [])
          ++ [Emit.finalTrailer (trailerStr cfgI)])) :=
  final_close_from_last_record cfgI [rec1] (okOut (gen_mt9 cfgI [rec1]))
    (stepSt (step cfgI initState rec1)) (stepOut (step cfgI initState rec1))
    (convert_values rec1 "DDMMYYYY") (by rfl) (by rfl) (by rfl)

end MT940
